import Mathlib

/-!
Verification of the lexical scanner of a small language (Go packages
`token` and `lexer`).  Go strings are byte sequences, so the input and
every token literal are modelled as `List Nat` of byte values; `TokenType`
is a plain string constant exactly as in the source.  The three scanning
loops (`skipWhitespace`, `readIdentifier`, `readNumber`) advance through
`readChar`, which always increments `readPosition`; they are rendered with
an explicit iteration bound `input.length + 2`, which is proved to dominate
the number of iterations any of the loops can perform from any state
(lemma `scanWhile_stops`), so the bounded rendering agrees with the Go
`for` loops.
-/

/-- Byte values of an ASCII string, mirroring Go's byte-indexed strings. -/
def bytes (s : String) : List Nat := s.data.map Char.toNat

/-- TokenType represents the type of a token in the language (a string in the source). -/
abbrev TokenType := String

/-- Token represents a token with its type and literal value (literal = the bytes that produced it). -/
structure Token where
  type : TokenType
  literal : List Nat
  deriving DecidableEq, Repr

namespace token

/-- Constant ILLEGAL from token.go. -/
def ILLEGAL : TokenType := "ILLEGAL"

/-- Constant EOF from token.go. -/
def EOF : TokenType := "EOF"

/-- Constant IDENT from token.go. -/
def IDENT : TokenType := "IDENT"

/-- Constant INT from token.go. -/
def INT : TokenType := "INT"

/-- Constant ASSIGN from token.go. -/
def ASSIGN : TokenType := "="

/-- Constant PLUS from token.go. -/
def PLUS : TokenType := "+"

/-- Modelled from the spec: the `Minus` token kind, referenced by the lexer
as `token.MINUS` but absent from the token.go snapshot under src. -/
def MINUS : TokenType := "-"

/-- Modelled from the spec: the `Bang` token kind, referenced by the lexer
as `token.BANG` but absent from the token.go snapshot under src. -/
def BANG : TokenType := "!"

/-- Modelled from the spec: the `Asterisk` token kind, referenced by the
lexer as `token.ASTERISK` but absent from the token.go snapshot under src. -/
def ASTERISK : TokenType := "*"

/-- Modelled from the spec: the `Slash` token kind, referenced by the lexer
as `token.SLASH` but absent from the token.go snapshot under src. -/
def SLASH : TokenType := "/"

/-- Modelled from the spec: the `LessThan` token kind, referenced by the
lexer as `token.LT` but absent from the token.go snapshot under src. -/
def LT : TokenType := "<"

/-- Modelled from the spec: the `GreaterThan` token kind, referenced by the
lexer as `token.GT` but absent from the token.go snapshot under src. -/
def GT : TokenType := ">"

/-- Modelled from the spec: the two-character `Equal` token kind, referenced
by the lexer as `token.EQ` but absent from the token.go snapshot under src. -/
def EQ : TokenType := "=="

/-- Modelled from the spec: the two-character `NotEqual` token kind,
referenced by the lexer as `token.NOT_EQ` but absent from the token.go
snapshot under src. -/
def NOT_EQ : TokenType := "!="

/-- Constant COMMA from token.go. -/
def COMMA : TokenType := ","

/-- Constant SEMICOLON from token.go. -/
def SEMICOLON : TokenType := ";"

/-- Constant LPAREN from token.go. -/
def LPAREN : TokenType := "("

/-- Constant RPAREN from token.go. -/
def RPAREN : TokenType := ")"

/-- Constant LBRACE from token.go. -/
def LBRACE : TokenType := "\x7b"

/-- Constant RBRACE from token.go. -/
def RBRACE : TokenType := "\x7d"

/-- Constant FUNCTION from token.go. -/
def FUNCTION : TokenType := "FUNCTION"

/-- Constant LET from token.go. -/
def LET : TokenType := "LET"

/-- LookupIdent checks if the identifier is a keyword and returns the
appropriate token type; the `keywords` map of token.go has exactly the
entries "fn" and "let". -/
def LookupIdent (ident : List Nat) : TokenType :=
  if ident = bytes "fn" then FUNCTION
  else if ident = bytes "let" then LET
  else IDENT

end token

/-- Lexer represents the lexer (or scanner) for tokenizing the input string. -/
structure Lexer where
  input : List Nat
  position : Nat
  readPosition : Nat
  ch : Nat
  deriving DecidableEq, Repr

namespace Lexer

/-- readChar advances the lexer to the next character in the input,
setting `ch` to 0 if the end of the input is reached. -/
def readChar (l : Lexer) : Lexer :=
  { input := l.input
    ch := if l.input.length ≤ l.readPosition then 0 else l.input.getD l.readPosition 0
    position := l.readPosition
    readPosition := l.readPosition + 1 }

/-- New initializes a new Lexer for the given input (Go zero-initializes
`position`, `readPosition` and `ch`, then calls `readChar` once). -/
def New (input : List Nat) : Lexer :=
  readChar { input := input, position := 0, readPosition := 0, ch := 0 }

/-- peekChar returns the character at `readPosition` without mutating state. -/
def peekChar (l : Lexer) : Nat :=
  if l.input.length ≤ l.readPosition then 0 else l.input.getD l.readPosition 0

/-- isDigit checks if the given character is a digit ('0' to '9'). -/
def isDigit (ch : Nat) : Bool :=
  48 ≤ ch && ch ≤ 57

/-- isLetter checks if the given character is an ASCII letter or an underscore. -/
def isLetter (ch : Nat) : Bool :=
  (97 ≤ ch && ch ≤ 122) || (65 ≤ ch && ch ≤ 90) || ch == 95

/-- whitespace test used by skipWhitespace: space, tab, newline, carriage return. -/
def isWhitespace (ch : Nat) : Bool :=
  ch == 32 || ch == 9 || ch == 10 || ch == 13

/-- scanWhile renders the Go pattern `for p(l.ch) { l.readChar() }`; the
first argument bounds the number of iterations (see `scanWhile_stops`). -/
def scanWhile (p : Nat → Bool) : Nat → Lexer → Lexer
  | 0, l => l
  | n + 1, l => if p l.ch then scanWhile p n (readChar l) else l

/-- skipWhitespace skips over spaces, tabs, and newlines. -/
def skipWhitespace (l : Lexer) : Lexer :=
  scanWhile isWhitespace (l.input.length + 2) l

/-- slice models the Go string slice `inp[a:b]`. -/
def slice (inp : List Nat) (a b : Nat) : List Nat :=
  (inp.drop a).take (b - a)

/-- readIdentifier reads a maximal run of letters/underscores starting at the
current position and returns it together with the advanced lexer. -/
def readIdentifier (l : Lexer) : List Nat × Lexer :=
  let l2 := scanWhile isLetter (l.input.length + 2) l
  (slice l2.input l.position l2.position, l2)

/-- readNumber reads a maximal run of digits starting at the current
position and returns it together with the advanced lexer. -/
def readNumber (l : Lexer) : List Nat × Lexer :=
  let l2 := scanWhile isDigit (l.input.length + 2) l
  (slice l2.input l.position l2.position, l2)

/-- stringOfByte models Go's built-in integer-to-string conversion
`string(ch)` applied to a byte value: the result is the UTF-8 encoding of
the code point `ch` — the byte itself for ASCII values below 128, and the
two-byte sequence `0xC0+ch/64, 0x80+ch%64` for values 128-255. -/
def stringOfByte (ch : Nat) : List Nat :=
  if ch < 128 then [ch] else [192 + ch / 64, 128 + ch % 64]

/-- newToken creates a new token with the given type and literal
`string(ch)` (the UTF-8 encoding of the byte value, via `stringOfByte`). -/
def newToken (tokenType : TokenType) (ch : Nat) : Token :=
  { type := tokenType, literal := stringOfByte ch }

/-- newTwoCharToken creates a new token whose literal is the concatenation
`string(ch1) + string(ch2)` of the conversions of the two given bytes. -/
def newTwoCharToken (tokenType : TokenType) (ch1 ch2 : Nat) : Token :=
  { type := tokenType, literal := stringOfByte ch1 ++ stringOfByte ch2 }

/-- nextTokenCore is the body of NextToken after its initial
`l.skipWhitespace()` call: the `switch l.ch` statement of the source,
with the trailing `l.readChar()` applied on every branch that does not
return early (the identifier and number branches return directly). -/
def nextTokenCore (l : Lexer) : Token × Lexer :=
  if l.ch = 61 then
    if peekChar l = 61 then
      let c := l.ch
      let l2 := readChar l
      (newTwoCharToken token.EQ c l2.ch, readChar l2)
    else (newToken token.ASSIGN l.ch, readChar l)
  else if l.ch = 43 then (newToken token.PLUS l.ch, readChar l)
  else if l.ch = 45 then (newToken token.MINUS l.ch, readChar l)
  else if l.ch = 33 then
    if peekChar l = 61 then
      let c := l.ch
      let l2 := readChar l
      (newTwoCharToken token.NOT_EQ c l2.ch, readChar l2)
    else (newToken token.BANG l.ch, readChar l)
  else if l.ch = 42 then (newToken token.ASTERISK l.ch, readChar l)
  else if l.ch = 47 then (newToken token.SLASH l.ch, readChar l)
  else if l.ch = 60 then (newToken token.LT l.ch, readChar l)
  else if l.ch = 62 then (newToken token.GT l.ch, readChar l)
  else if l.ch = 44 then (newToken token.COMMA l.ch, readChar l)
  else if l.ch = 59 then (newToken token.SEMICOLON l.ch, readChar l)
  else if l.ch = 40 then (newToken token.LPAREN l.ch, readChar l)
  else if l.ch = 41 then (newToken token.RPAREN l.ch, readChar l)
  else if l.ch = 123 then (newToken token.LBRACE l.ch, readChar l)
  else if l.ch = 125 then (newToken token.RBRACE l.ch, readChar l)
  else if l.ch = 0 then ({ type := token.EOF, literal := [] }, readChar l)
  else if isLetter l.ch then
    let r := readIdentifier l
    ({ type := token.LookupIdent r.1, literal := r.1 }, r.2)
  else if isDigit l.ch then
    let r := readNumber l
    ({ type := token.INT, literal := r.1 }, r.2)
  else (newToken token.ILLEGAL l.ch, readChar l)

/-- NextToken retrieves the next token from the input and advances the
lexer; the returned pair is (token, new lexer state).  As in the source,
whitespace is skipped first and then the current character is dispatched
on (`nextTokenCore`). -/
def NextToken (l0 : Lexer) : Token × Lexer :=
  nextTokenCore (skipWhitespace l0)

/-- stateAt gives the scanner state after `n` calls to NextToken on a
scanner freshly constructed from `inp`. -/
def stateAt (inp : List Nat) : Nat → Lexer
  | 0 => New inp
  | n + 1 => (NextToken (stateAt inp n)).2

/-- tokenAt gives the token returned by the `n`-th (0-based) call to
NextToken on a scanner freshly constructed from `inp`. -/
def tokenAt (inp : List Nat) (n : Nat) : Token :=
  (NextToken (stateAt inp n)).1

/-- exhausted states: the sentinel is current and the read cursor is past
the end of the input. -/
def exhausted (l : Lexer) : Prop :=
  l.ch = 0 ∧ l.input.length < l.readPosition




theorem readChar_input (l : Lexer) : (readChar l).input = l.input := rfl

theorem readChar_rp (l : Lexer) : (readChar l).readPosition = l.readPosition + 1 := rfl

theorem readChar_pos (l : Lexer) : (readChar l).position = l.readPosition := rfl

theorem iterate_input (k : Nat) (l : Lexer) : (readChar^[k] l).input = l.input := by
  induction k with
  | zero => rfl
  | succ k ih => rw [Function.iterate_succ_apply', readChar_input, ih]

theorem iterate_rp (k : Nat) (l : Lexer) :
    (readChar^[k] l).readPosition = l.readPosition + k := by
  induction k with
  | zero => rfl
  | succ k ih => rw [Function.iterate_succ_apply', readChar_rp, ih]; omega

theorem scanWhile_not_entered (p : Nat → Bool) (n : Nat) (l : Lexer)
    (h : p l.ch = false) : scanWhile p n l = l := by
  cases n with
  | zero => rfl
  | succ n => simp [scanWhile, h]

theorem scanWhile_iterate (p : Nat → Bool) :
    ∀ n l, ∃ k, scanWhile p n l = readChar^[k] l ∧ (1 ≤ n → p l.ch = true → 1 ≤ k) := by
  intro n
  induction n with
  | zero => exact fun l => ⟨0, rfl, by omega⟩
  | succ n ih =>
    intro l
    by_cases h : p l.ch
    · obtain ⟨k, hk, -⟩ := ih (readChar l)
      refine ⟨k + 1, ?_, fun _ _ => by omega⟩
      rw [scanWhile, if_pos h, hk, Function.iterate_succ_apply]
    · exact ⟨0, scanWhile_not_entered p _ l (by simpa using h),
        fun _ hc => absurd hc (by simpa using h)⟩

theorem scanWhile_stops (p : Nat → Bool) (hp0 : p 0 = false) :
    ∀ n l, l.input.length + 1 - l.readPosition < n → p (scanWhile p n l).ch = false := by
  intro n
  induction n with
  | zero => omega
  | succ n ih =>
    intro l hn
    by_cases h : p l.ch
    · rw [scanWhile, if_pos h]
      by_cases hend : l.input.length ≤ l.readPosition
      · have hch : (readChar l).ch = 0 := by simp [readChar, hend]
        rw [scanWhile_not_entered p n (readChar l) (by rw [hch, hp0])]
        rw [hch, hp0]
      · exact ih (readChar l) (by simp only [readChar_input, readChar_rp]; omega)
    · rw [scanWhile_not_entered p _ l (by simpa using h)]
      simpa using h

theorem skipWhitespace_stops (l : Lexer) : isWhitespace (skipWhitespace l).ch = false :=
  scanWhile_stops isWhitespace rfl _ l (by omega)

theorem skipWhitespace_iterate (l : Lexer) :
    ∃ k, skipWhitespace l = readChar^[k] l := by
  obtain ⟨k, hk, -⟩ := scanWhile_iterate isWhitespace (l.input.length + 2) l
  exact ⟨k, hk⟩

theorem skipWhitespace_input (l : Lexer) : (skipWhitespace l).input = l.input := by
  obtain ⟨k, hk⟩ := skipWhitespace_iterate l
  rw [hk, iterate_input]

theorem skipWhitespace_of_not_ws (l : Lexer) (h : isWhitespace l.ch = false) :
    skipWhitespace l = l :=
  scanWhile_not_entered isWhitespace _ l h

theorem skipWhitespace_of_ch0 (l : Lexer) (h : l.ch = 0) : skipWhitespace l = l :=
  skipWhitespace_of_not_ws l (by rw [h]; rfl)

theorem nextTokenCore_cases (s : Lexer) :
    (∃ k, (nextTokenCore s).2 = readChar^[k + 1] s) ∧
    ((nextTokenCore s).1.type = token.EOF → s.ch = 0) := by
  simp only [nextTokenCore]
  by_cases h61 : s.ch = 61
  · rw [if_pos h61]
    by_cases hp : peekChar s = 61
    · rw [if_pos hp]
      exact ⟨⟨1, rfl⟩, fun h => absurd (show token.EQ = token.EOF from h) (by decide)⟩
    · rw [if_neg hp]
      exact ⟨⟨0, rfl⟩, fun h => absurd (show token.ASSIGN = token.EOF from h) (by decide)⟩
  rw [if_neg h61]
  by_cases h43 : s.ch = 43
  · rw [if_pos h43]
    exact ⟨⟨0, rfl⟩, fun h => absurd (show token.PLUS = token.EOF from h) (by decide)⟩
  rw [if_neg h43]
  by_cases h45 : s.ch = 45
  · rw [if_pos h45]
    exact ⟨⟨0, rfl⟩, fun h => absurd (show token.MINUS = token.EOF from h) (by decide)⟩
  rw [if_neg h45]
  by_cases h33 : s.ch = 33
  · rw [if_pos h33]
    by_cases hp : peekChar s = 61
    · rw [if_pos hp]
      exact ⟨⟨1, rfl⟩, fun h => absurd (show token.NOT_EQ = token.EOF from h) (by decide)⟩
    · rw [if_neg hp]
      exact ⟨⟨0, rfl⟩, fun h => absurd (show token.BANG = token.EOF from h) (by decide)⟩
  rw [if_neg h33]
  by_cases h42 : s.ch = 42
  · rw [if_pos h42]
    exact ⟨⟨0, rfl⟩, fun h => absurd (show token.ASTERISK = token.EOF from h) (by decide)⟩
  rw [if_neg h42]
  by_cases h47 : s.ch = 47
  · rw [if_pos h47]
    exact ⟨⟨0, rfl⟩, fun h => absurd (show token.SLASH = token.EOF from h) (by decide)⟩
  rw [if_neg h47]
  by_cases h60 : s.ch = 60
  · rw [if_pos h60]
    exact ⟨⟨0, rfl⟩, fun h => absurd (show token.LT = token.EOF from h) (by decide)⟩
  rw [if_neg h60]
  by_cases h62 : s.ch = 62
  · rw [if_pos h62]
    exact ⟨⟨0, rfl⟩, fun h => absurd (show token.GT = token.EOF from h) (by decide)⟩
  rw [if_neg h62]
  by_cases h44 : s.ch = 44
  · rw [if_pos h44]
    exact ⟨⟨0, rfl⟩, fun h => absurd (show token.COMMA = token.EOF from h) (by decide)⟩
  rw [if_neg h44]
  by_cases h59 : s.ch = 59
  · rw [if_pos h59]
    exact ⟨⟨0, rfl⟩, fun h => absurd (show token.SEMICOLON = token.EOF from h) (by decide)⟩
  rw [if_neg h59]
  by_cases h40 : s.ch = 40
  · rw [if_pos h40]
    exact ⟨⟨0, rfl⟩, fun h => absurd (show token.LPAREN = token.EOF from h) (by decide)⟩
  rw [if_neg h40]
  by_cases h41 : s.ch = 41
  · rw [if_pos h41]
    exact ⟨⟨0, rfl⟩, fun h => absurd (show token.RPAREN = token.EOF from h) (by decide)⟩
  rw [if_neg h41]
  by_cases h123 : s.ch = 123
  · rw [if_pos h123]
    exact ⟨⟨0, rfl⟩, fun h => absurd (show token.LBRACE = token.EOF from h) (by decide)⟩
  rw [if_neg h123]
  by_cases h125 : s.ch = 125
  · rw [if_pos h125]
    exact ⟨⟨0, rfl⟩, fun h => absurd (show token.RBRACE = token.EOF from h) (by decide)⟩
  rw [if_neg h125]
  by_cases h0 : s.ch = 0
  · rw [if_pos h0]
    exact ⟨⟨0, rfl⟩, fun _ => h0⟩
  rw [if_neg h0]
  by_cases hlet : isLetter s.ch = true
  · rw [if_pos hlet]
    constructor
    · obtain ⟨k2, hk2, hge⟩ := scanWhile_iterate isLetter (s.input.length + 2) s
      have hk2ge : 1 ≤ k2 := hge (by omega) hlet
      obtain ⟨j, rfl⟩ : ∃ j, k2 = j + 1 := ⟨k2 - 1, by omega⟩
      exact ⟨j, hk2⟩
    · intro h
      have h2 : token.LookupIdent (readIdentifier s).1 = token.EOF := h
      unfold token.LookupIdent at h2
      split_ifs at h2 <;> exact absurd h2 (by decide)
  rw [if_neg hlet]
  by_cases hdig : isDigit s.ch = true
  · rw [if_pos hdig]
    constructor
    · obtain ⟨k2, hk2, hge⟩ := scanWhile_iterate isDigit (s.input.length + 2) s
      have hk2ge : 1 ≤ k2 := hge (by omega) hdig
      obtain ⟨j, rfl⟩ : ∃ j, k2 = j + 1 := ⟨k2 - 1, by omega⟩
      exact ⟨j, hk2⟩
    · exact fun h => absurd (show token.INT = token.EOF from h) (by decide)
  rw [if_neg hdig]
  exact ⟨⟨0, rfl⟩, fun h => absurd (show token.ILLEGAL = token.EOF from h) (by decide)⟩

theorem NextToken_iterate (l0 : Lexer) : ∃ k, (NextToken l0).2 = readChar^[k + 1] l0 := by
  obtain ⟨k1, hk1⟩ := skipWhitespace_iterate l0
  obtain ⟨k2, hk2⟩ := (nextTokenCore_cases (skipWhitespace l0)).1
  refine ⟨k2 + k1, ?_⟩
  show (nextTokenCore (skipWhitespace l0)).2 = _
  rw [hk2, hk1, ← Function.iterate_add_apply]
  congr 1
  omega

theorem NextToken_eof_type (l0 : Lexer) (h : (NextToken l0).1.type = token.EOF) :
    (skipWhitespace l0).ch = 0 :=
  (nextTokenCore_cases (skipWhitespace l0)).2 h

theorem nextTokenCore_ch0 (s : Lexer) (h : s.ch = 0) :
    nextTokenCore s = ({ type := token.EOF, literal := [] }, readChar s) := by
  simp [nextTokenCore, h, isLetter, isDigit]

theorem NextToken_swch0 (l0 : Lexer) (h : (skipWhitespace l0).ch = 0) :
    NextToken l0 = ({ type := token.EOF, literal := [] }, readChar (skipWhitespace l0)) :=
  nextTokenCore_ch0 (skipWhitespace l0) h

theorem NextToken_ch0 (l : Lexer) (h : l.ch = 0) :
    NextToken l = ({ type := token.EOF, literal := [] }, readChar l) := by
  have hsw := skipWhitespace_of_ch0 l h
  show nextTokenCore (skipWhitespace l) = _
  rw [hsw]
  exact nextTokenCore_ch0 l h

theorem inv_readChar (l : Lexer) (hnul : ∀ b ∈ l.input, b ≠ 0) :
    ((readChar l).ch = 0 ↔ l.input.length < (readChar l).readPosition) := by
  by_cases h : l.input.length ≤ l.readPosition
  · constructor
    · intro _
      rw [readChar_rp]
      omega
    · intro _
      show (if l.input.length ≤ l.readPosition then 0 else l.input.getD l.readPosition 0) = 0
      rw [if_pos h]
  · have hlt : l.readPosition < l.input.length := by omega
    have hch : (readChar l).ch = l.input.getD l.readPosition 0 := by
      show (if l.input.length ≤ l.readPosition then 0 else l.input.getD l.readPosition 0) = _
      rw [if_neg h]
    rw [List.getD_eq_getElem l.input 0 hlt] at hch
    constructor
    · intro h0
      exact absurd (hch.symm.trans h0) (hnul _ (List.getElem_mem hlt))
    · intro hlen
      rw [readChar_rp] at hlen
      omega

theorem inv_New (inp : List Nat) (hnul : ∀ b ∈ inp, b ≠ 0) :
    ((New inp).ch = 0 ↔ inp.length < (New inp).readPosition) :=
  inv_readChar _ hnul

theorem inv_iterate (l : Lexer) (hnul : ∀ b ∈ l.input, b ≠ 0) (k : Nat)
    (h : l.ch = 0 ↔ l.input.length < l.readPosition) :
    ((readChar^[k] l).ch = 0 ↔ l.input.length < (readChar^[k] l).readPosition) := by
  cases k with
  | zero => exact h
  | succ k =>
    rw [Function.iterate_succ_apply']
    have h2 := inv_readChar (readChar^[k] l) (by rw [iterate_input]; exact hnul)
    rwa [iterate_input] at h2

theorem stateAt_input (inp : List Nat) (n : Nat) : (stateAt inp n).input = inp := by
  induction n with
  | zero => rfl
  | succ n ih =>
    obtain ⟨k, hk⟩ := NextToken_iterate (stateAt inp n)
    show (NextToken (stateAt inp n)).2.input = inp
    rw [hk, iterate_input, ih]

theorem inv_stateAt (inp : List Nat) (hnul : ∀ b ∈ inp, b ≠ 0) (n : Nat) :
    ((stateAt inp n).ch = 0 ↔ inp.length < (stateAt inp n).readPosition) := by
  induction n with
  | zero => exact inv_New inp hnul
  | succ n ih =>
    obtain ⟨k, hk⟩ := NextToken_iterate (stateAt inp n)
    show ((NextToken (stateAt inp n)).2.ch = 0 ↔
      inp.length < (NextToken (stateAt inp n)).2.readPosition)
    rw [hk, Function.iterate_succ_apply']
    have hin : (readChar^[k] (stateAt inp n)).input = inp := by
      rw [iterate_input, stateAt_input]
    have h2 := inv_readChar (readChar^[k] (stateAt inp n)) (by rw [hin]; exact hnul)
    rwa [hin] at h2

theorem inv_skipWhitespace (l : Lexer) (hnul : ∀ b ∈ l.input, b ≠ 0)
    (h : l.ch = 0 ↔ l.input.length < l.readPosition) :
    ((skipWhitespace l).ch = 0 ↔ l.input.length < (skipWhitespace l).readPosition) := by
  obtain ⟨k, hk⟩ := skipWhitespace_iterate l
  rw [hk]
  exact inv_iterate l hnul k h

theorem exhausted_readChar (l : Lexer) (h : exhausted l) : exhausted (readChar l) := by
  obtain ⟨h1, h2⟩ := h
  constructor
  · show (if l.input.length ≤ l.readPosition then 0 else l.input.getD l.readPosition 0) = 0
    rw [if_pos (by omega)]
  · rw [readChar_input, readChar_rp]
    omega

theorem exhausted_NextToken (l : Lexer) (h : exhausted l) :
    NextToken l = ({ type := token.EOF, literal := [] }, readChar l) ∧
    exhausted ((NextToken l).2) := by
  have h1 := NextToken_ch0 l h.1
  refine ⟨h1, ?_⟩
  rw [h1]
  exact exhausted_readChar l h

theorem exhausted_stateAt_add (inp : List Nat) (m : Nat) (h : exhausted (stateAt inp m)) :
    ∀ j, exhausted (stateAt inp (m + j)) := by
  intro j
  induction j with
  | zero => exact h
  | succ j ih =>
    show exhausted (NextToken (stateAt inp (m + j))).2
    exact (exhausted_NextToken _ ih).2

theorem NextToken_rp_lt (l : Lexer) : l.readPosition < (NextToken l).2.readPosition := by
  obtain ⟨k, hk⟩ := NextToken_iterate l
  rw [hk, iterate_rp]
  omega

theorem NextToken_pos_lt (l : Lexer) (h : l.position < l.readPosition) :
    l.position < (NextToken l).2.position := by
  obtain ⟨k, hk⟩ := NextToken_iterate l
  rw [hk, Function.iterate_succ_apply', readChar_pos, iterate_rp]
  omega

theorem stateAt_pos_lt_rp (inp : List Nat) (n : Nat) :
    (stateAt inp n).position < (stateAt inp n).readPosition := by
  cases n with
  | zero => exact Nat.zero_lt_one
  | succ n =>
    obtain ⟨k, hk⟩ := NextToken_iterate (stateAt inp n)
    show (NextToken (stateAt inp n)).2.position < (NextToken (stateAt inp n)).2.readPosition
    rw [hk, Function.iterate_succ_apply', readChar_pos, readChar_rp]
    omega

theorem stateAt_rp_eq (inp : List Nat) (n : Nat) :
    (stateAt inp n).readPosition = (stateAt inp n).position + 1 := by
  cases n with
  | zero => rfl
  | succ n =>
    obtain ⟨k, hk⟩ := NextToken_iterate (stateAt inp n)
    show (NextToken (stateAt inp n)).2.readPosition = (NextToken (stateAt inp n)).2.position + 1
    rw [hk, Function.iterate_succ_apply', readChar_pos, readChar_rp]

theorem stateAt_strict_mono (inp : List Nat) (m n : Nat) (h : m < n) :
    (stateAt inp m).readPosition < (stateAt inp n).readPosition ∧
    (stateAt inp m).position < (stateAt inp n).position := by
  induction n with
  | zero => omega
  | succ n ih =>
    rcases Nat.lt_succ_iff_lt_or_eq.mp h with h2 | h2
    · obtain ⟨ihr, ihp⟩ := ih h2
      have hr := NextToken_rp_lt (stateAt inp n)
      have hp := NextToken_pos_lt (stateAt inp n) (stateAt_pos_lt_rp inp n)
      constructor
      · show (stateAt inp m).readPosition < (NextToken (stateAt inp n)).2.readPosition
        omega
      · show (stateAt inp m).position < (NextToken (stateAt inp n)).2.position
        omega
    · subst h2
      exact ⟨NextToken_rp_lt _, NextToken_pos_lt _ (stateAt_pos_lt_rp inp m)⟩

theorem nextTokenCore_illegal (s : Lexer)
    (h61 : s.ch ≠ 61) (h43 : s.ch ≠ 43) (h45 : s.ch ≠ 45) (h33 : s.ch ≠ 33)
    (h42 : s.ch ≠ 42) (h47 : s.ch ≠ 47) (h60 : s.ch ≠ 60) (h62 : s.ch ≠ 62)
    (h44 : s.ch ≠ 44) (h59 : s.ch ≠ 59) (h40 : s.ch ≠ 40) (h41 : s.ch ≠ 41)
    (h123 : s.ch ≠ 123) (h125 : s.ch ≠ 125) (h0 : s.ch ≠ 0)
    (hlet : isLetter s.ch = false) (hdig : isDigit s.ch = false) :
    nextTokenCore s = (newToken token.ILLEGAL s.ch, readChar s) := by
  simp only [nextTokenCore]
  rw [if_neg h61, if_neg h43, if_neg h45, if_neg h33, if_neg h42, if_neg h47,
    if_neg h60, if_neg h62, if_neg h44, if_neg h59, if_neg h40, if_neg h41,
    if_neg h123, if_neg h125, if_neg h0, if_neg (by simp [hlet]), if_neg (by simp [hdig])]

end Lexer

/-- Claim C1 is refuted as stated: for the input consisting of a NUL byte
followed by the letter `b`, the first next() call returns EndOfInput, yet
the second call returns an Identifier token, so EndOfInput is not absorbing
for inputs containing NUL bytes. -/
theorem C1_counterexample :
    (Lexer.tokenAt [0, 98] 0).type = token.EOF ∧
    (Lexer.tokenAt [0, 98] 1).type ≠ token.EOF := by decide

/-- Claim C1 (amended): for every input string containing no NUL (0) byte,
once a call to next() has returned an EndOfInput token, every subsequent
next() call on the same scanner also returns EndOfInput. -/
theorem C1_eof_idempotent_nulfree (inp : List Nat) (hnul : ∀ b ∈ inp, b ≠ 0)
    (m n : Nat) (hmn : m ≤ n) (h : (Lexer.tokenAt inp m).type = token.EOF) :
    (Lexer.tokenAt inp n).type = token.EOF := by
  have hch : (Lexer.skipWhitespace (Lexer.stateAt inp m)).ch = 0 :=
    Lexer.NextToken_eof_type _ h
  have hin : (Lexer.stateAt inp m).input = inp := Lexer.stateAt_input inp m
  have hinv0 := Lexer.inv_stateAt inp hnul m
  have hinv2 := Lexer.inv_skipWhitespace (Lexer.stateAt inp m)
    (by rw [hin]; exact hnul) (by rw [hin]; exact hinv0)
  rw [hin] at hinv2
  have hswin : (Lexer.skipWhitespace (Lexer.stateAt inp m)).input = inp := by
    rw [Lexer.skipWhitespace_input, hin]
  have hex : Lexer.exhausted (Lexer.skipWhitespace (Lexer.stateAt inp m)) := by
    refine ⟨hch, ?_⟩
    rw [hswin]
    exact hinv2.mp hch
  have hex1 : Lexer.exhausted (Lexer.stateAt inp (m + 1)) := by
    show Lexer.exhausted (Lexer.NextToken (Lexer.stateAt inp m)).2
    rw [Lexer.NextToken_swch0 _ hch]
    exact Lexer.exhausted_readChar _ hex
  rcases Nat.eq_or_lt_of_le hmn with rfl | hlt
  · exact h
  · have hexn : Lexer.exhausted (Lexer.stateAt inp n) := by
      have h3 := Lexer.exhausted_stateAt_add inp (m + 1) hex1 (n - (m + 1))
      rwa [Nat.add_sub_cancel' hlt] at h3
    have h4 := (Lexer.exhausted_NextToken _ hexn).1
    show (Lexer.NextToken (Lexer.stateAt inp n)).1.type = token.EOF
    rw [h4]

/-- Witness for C1 (amended) at the concrete input "a" with m = 1, n = 2. -/
theorem C1_eof_idempotent_nulfree_witness :
    (Lexer.tokenAt (bytes "a") 2).type = token.EOF :=
  C1_eof_idempotent_nulfree (bytes "a") (by decide) 1 2 (by decide) (by decide)

/-- Claim C2 is refuted as stated: on the empty input the scanner is
exhausted after construction, next() does return EndOfInput with empty
text, but the call mutates the cursor: position and readPosition both
change (the trailing readChar of the source runs on the EOF branch too). -/
theorem C2_counterexample :
    (Lexer.New []).ch = 0 ∧
    (Lexer.New []).input.length < (Lexer.New []).readPosition ∧
    (Lexer.NextToken (Lexer.New [])).1 = { type := token.EOF, literal := [] } ∧
    (Lexer.NextToken (Lexer.New [])).2.position ≠ (Lexer.New []).position ∧
    (Lexer.NextToken (Lexer.New [])).2.readPosition ≠ (Lexer.New []).readPosition := by
  decide

/-- Claim C2 (amended): when next() is called while currentChar holds the
sentinel and the input is exhausted, it returns EndOfInput with empty text
and currentChar stays the sentinel, but the call does advance once more:
position becomes the old readPosition and readPosition increases by one
(the input buffer is unchanged). -/
theorem C2_eof_call_behavior (l : Lexer) (h : Lexer.exhausted l) :
    (Lexer.NextToken l).1 = { type := token.EOF, literal := [] } ∧
    (Lexer.NextToken l).2.ch = 0 ∧
    (Lexer.NextToken l).2.position = l.readPosition ∧
    (Lexer.NextToken l).2.readPosition = l.readPosition + 1 ∧
    (Lexer.NextToken l).2.input = l.input := by
  have h1 := Lexer.NextToken_ch0 l h.1
  rw [h1]
  exact ⟨rfl, (Lexer.exhausted_readChar l h).1, rfl, rfl, rfl⟩

/-- Witness for C2 (amended) at the exhausted scanner built from the empty input. -/
theorem C2_eof_call_behavior_witness :
    (Lexer.NextToken (Lexer.New [])).2.position = (Lexer.New []).readPosition :=
  (C2_eof_call_behavior (Lexer.New []) ⟨rfl, Nat.zero_lt_one⟩).2.2.1

/-- Claim C3: one-character lookahead disambiguates `=` and `!`: "==" lexes
to a single Equal token with text "==" followed by EndOfInput, "!=" to a
single NotEqual token followed by EndOfInput, a lone "!" to Bang, and a
lone "=" to Assign. -/
theorem C3_operator_lookahead :
    Lexer.tokenAt (bytes "==") 0 = { type := token.EQ, literal := bytes "==" } ∧
    Lexer.tokenAt (bytes "==") 1 = { type := token.EOF, literal := [] } ∧
    Lexer.tokenAt (bytes "!=") 0 = { type := token.NOT_EQ, literal := bytes "!=" } ∧
    Lexer.tokenAt (bytes "!=") 1 = { type := token.EOF, literal := [] } ∧
    Lexer.tokenAt (bytes "!") 0 = { type := token.BANG, literal := bytes "!" } ∧
    Lexer.tokenAt (bytes "!") 1 = { type := token.EOF, literal := [] } ∧
    Lexer.tokenAt (bytes "=") 0 = { type := token.ASSIGN, literal := bytes "=" } ∧
    Lexer.tokenAt (bytes "=") 1 = { type := token.EOF, literal := [] } := by
  decide

/-- Claim C4: keyword lookup is exact-match and case-sensitive — LookupIdent
maps exactly "fn" to Function and exactly "let" to Let and everything else
to Identifier; lexing "fn" yields kind Function while "fnx" yields
Identifier with text "fnx". -/
theorem C4_keyword_exact_match :
    token.LookupIdent (bytes "fn") = token.FUNCTION ∧
    token.LookupIdent (bytes "let") = token.LET ∧
    (∀ s : List Nat, s ≠ bytes "fn" → s ≠ bytes "let" →
      token.LookupIdent s = token.IDENT) ∧
    Lexer.tokenAt (bytes "fn") 0 = { type := token.FUNCTION, literal := bytes "fn" } ∧
    Lexer.tokenAt (bytes "fnx") 0 = { type := token.IDENT, literal := bytes "fnx" } := by
  refine ⟨by decide, by decide, ?_, by decide, by decide⟩
  intro s h1 h2
  simp [token.LookupIdent, h1, h2]

/-- Witness for C4 at the non-keyword identifier "fnx". -/
theorem C4_keyword_exact_match_witness :
    token.LookupIdent (bytes "fnx") = token.IDENT :=
  C4_keyword_exact_match.2.2.1 (bytes "fnx") (by decide) (by decide)

/-- Claim C5: for the input "let five = 5;" the yielded token sequence is
exactly Let("let"), Identifier("five"), Assign("="), IntegerLiteral("5"),
Semicolon(";"), EndOfInput(""). -/
theorem C5_let_five_sequence :
    Lexer.tokenAt (bytes "let five = 5;") 0 = { type := token.LET, literal := bytes "let" } ∧
    Lexer.tokenAt (bytes "let five = 5;") 1 = { type := token.IDENT, literal := bytes "five" } ∧
    Lexer.tokenAt (bytes "let five = 5;") 2 = { type := token.ASSIGN, literal := bytes "=" } ∧
    Lexer.tokenAt (bytes "let five = 5;") 3 = { type := token.INT, literal := bytes "5" } ∧
    Lexer.tokenAt (bytes "let five = 5;") 4 = { type := token.SEMICOLON, literal := bytes ";" } ∧
    Lexer.tokenAt (bytes "let five = 5;") 5 = { type := token.EOF, literal := [] } := by
  decide

/-- Claim C6 is refuted as stated: for the input whose first byte is NUL,
the freshly constructed scanner has currentChar equal to the sentinel value
0 while readPosition = 1 is not greater than the input length 2. -/
theorem C6_counterexample :
    ¬ ((Lexer.New [0, 97]).ch = 0 ↔
      (Lexer.New [0, 97]).input.length < (Lexer.New [0, 97]).readPosition) := by
  decide

/-- Claim C6 (amended): for every input containing no NUL (0) byte,
currentChar holds the sentinel value iff readPosition > len(input) — after
construction, after any advance (readChar) from any state over that input,
and at every state reached by a sequence of next() calls. -/
theorem C6_sentinel_iff_past_end_nulfree (inp : List Nat) (hnul : ∀ b ∈ inp, b ≠ 0) :
    ((Lexer.New inp).ch = 0 ↔ inp.length < (Lexer.New inp).readPosition) ∧
    (∀ l : Lexer, l.input = inp →
      ((Lexer.readChar l).ch = 0 ↔ inp.length < (Lexer.readChar l).readPosition)) ∧
    (∀ n : Nat,
      ((Lexer.stateAt inp n).ch = 0 ↔ inp.length < (Lexer.stateAt inp n).readPosition)) := by
  refine ⟨Lexer.inv_New inp hnul, ?_, Lexer.inv_stateAt inp hnul⟩
  intro l hl
  have h2 := Lexer.inv_readChar l (by rw [hl]; exact hnul)
  rwa [hl] at h2

/-- Witness for C6 (amended) at the one-letter input "a". -/
theorem C6_sentinel_iff_past_end_nulfree_witness :
    (Lexer.New [97]).ch = 0 ↔ ([97] : List Nat).length < (Lexer.New [97]).readPosition :=
  (C6_sentinel_iff_past_end_nulfree [97] (by decide)).1

/-- Claim C7: readPosition = position + 1 holds after construction, after
every advance (readChar) from any state, and at every state reached by a
sequence of next() calls; moreover every next() call mutates the cursor
only through readChar — its final state is an iterate of readChar (at
least one application) on its initial state. -/
theorem C7_readPosition_invariant :
    (∀ inp : List Nat, (Lexer.New inp).readPosition = (Lexer.New inp).position + 1) ∧
    (∀ l : Lexer, (Lexer.readChar l).readPosition = (Lexer.readChar l).position + 1) ∧
    (∀ (inp : List Nat) (n : Nat),
      (Lexer.stateAt inp n).readPosition = (Lexer.stateAt inp n).position + 1) ∧
    (∀ l : Lexer, ∃ k : Nat, (Lexer.NextToken l).2 = Lexer.readChar^[k + 1] l) :=
  ⟨fun _ => rfl, fun _ => rfl, Lexer.stateAt_rp_eq, Lexer.NextToken_iterate⟩

/-- Claim C8 is refuted as stated: the unrecognized byte 200 yields an
Illegal token, but its text is the two-byte UTF-8 encoding [195, 136] that
Go's `string(ch)` conversion produces for code point 200 — not the single
input byte [200]. -/
theorem C8_counterexample :
    (Lexer.NextToken (Lexer.New [200])).1.type = token.ILLEGAL ∧
    (Lexer.NextToken (Lexer.New [200])).1.literal = [195, 136] ∧
    (Lexer.NextToken (Lexer.New [200])).1.literal ≠ [200] := by decide

/-- Claim C8 (amended): next() never fails — at any state whose current
byte is not whitespace, not a letter or underscore, not a digit, not the
sentinel, and not one of the fourteen recognized operator/punctuation
bytes, it returns an Illegal token whose text is Go's `string(ch)`
conversion of that byte (exactly that single byte when it is ASCII, below
128; its two-byte UTF-8 encoding for bytes 128-255), advances past it, and
scanning continues, as on the input "a@b". -/
theorem C8_illegal_byte (l : Lexer)
    (hws : Lexer.isWhitespace l.ch = false)
    (hlet : Lexer.isLetter l.ch = false) (hdig : Lexer.isDigit l.ch = false)
    (h0 : l.ch ≠ 0)
    (h61 : l.ch ≠ 61) (h43 : l.ch ≠ 43) (h45 : l.ch ≠ 45) (h33 : l.ch ≠ 33)
    (h42 : l.ch ≠ 42) (h47 : l.ch ≠ 47) (h60 : l.ch ≠ 60) (h62 : l.ch ≠ 62)
    (h44 : l.ch ≠ 44) (h59 : l.ch ≠ 59) (h40 : l.ch ≠ 40) (h41 : l.ch ≠ 41)
    (h123 : l.ch ≠ 123) (h125 : l.ch ≠ 125) :
    Lexer.NextToken l =
      ({ type := token.ILLEGAL, literal := Lexer.stringOfByte l.ch }, Lexer.readChar l) ∧
    (l.ch < 128 → (Lexer.NextToken l).1.literal = [l.ch]) ∧
    Lexer.tokenAt (bytes "a@b") 1 = { type := token.ILLEGAL, literal := bytes "@" } ∧
    Lexer.tokenAt (bytes "a@b") 2 = { type := token.IDENT, literal := bytes "b" } ∧
    Lexer.tokenAt (bytes "a@b") 3 = { type := token.EOF, literal := [] } := by
  have hsw : Lexer.skipWhitespace l = l := Lexer.skipWhitespace_of_not_ws l hws
  have hmain : Lexer.NextToken l = (Lexer.newToken token.ILLEGAL l.ch, Lexer.readChar l) := by
    show Lexer.nextTokenCore (Lexer.skipWhitespace l) = _
    rw [hsw]
    exact Lexer.nextTokenCore_illegal l h61 h43 h45 h33 h42 h47 h60 h62 h44 h59
      h40 h41 h123 h125 h0 hlet hdig
  refine ⟨hmain, ?_, by decide, by decide, by decide⟩
  intro hlt
  rw [hmain]
  show Lexer.stringOfByte l.ch = [l.ch]
  rw [Lexer.stringOfByte, if_pos hlt]

/-- Witness for C8 (amended) at the scanner freshly constructed from the
single non-ASCII byte 200. -/
theorem C8_illegal_byte_witness :
    Lexer.NextToken (Lexer.New [200]) =
      ({ type := token.ILLEGAL, literal := Lexer.stringOfByte (Lexer.New [200]).ch },
        Lexer.readChar (Lexer.New [200])) :=
  (C8_illegal_byte (Lexer.New [200]) (by decide) (by decide) (by decide)
    (by decide) (by decide) (by decide) (by decide) (by decide) (by decide)
    (by decide) (by decide) (by decide) (by decide) (by decide) (by decide)
    (by decide) (by decide) (by decide)).1

/-- Claim C9: a NUL byte inside the input makes next() return EndOfInput
with empty text while still advancing past the NUL (whenever currentChar
is 0 the call returns EndOfInput and its final state is one readChar
further), so for the input "a"++NUL++"b" the yielded sequence is
Identifier("a"), EndOfInput, Identifier("b"), EndOfInput, EndOfInput, .... -/
theorem C9_nul_byte_yields_eof_then_continues :
    (∀ l : Lexer, l.ch = 0 →
      Lexer.NextToken l = ({ type := token.EOF, literal := [] }, Lexer.readChar l)) ∧
    Lexer.tokenAt [97, 0, 98] 0 = { type := token.IDENT, literal := [97] } ∧
    Lexer.tokenAt [97, 0, 98] 1 = { type := token.EOF, literal := [] } ∧
    Lexer.tokenAt [97, 0, 98] 2 = { type := token.IDENT, literal := [98] } ∧
    Lexer.tokenAt [97, 0, 98] 3 = { type := token.EOF, literal := [] } ∧
    Lexer.tokenAt [97, 0, 98] 4 = { type := token.EOF, literal := [] } :=
  ⟨Lexer.NextToken_ch0, by decide, by decide, by decide, by decide, by decide⟩

/-- Witness for C9 at the scanner freshly constructed from the single NUL byte. -/
theorem C9_nul_byte_yields_eof_then_continues_witness :
    Lexer.NextToken (Lexer.New [0]) =
      ({ type := token.EOF, literal := [] }, Lexer.readChar (Lexer.New [0])) :=
  C9_nul_byte_yields_eof_then_continues.1 (Lexer.New [0]) (by decide)

/-- Claim C10: every next() call, including at or past end-of-input,
advances at least once: readPosition strictly increases across one call
(and position does too, from any state satisfying position < readPosition,
which holds at every reachable state), so both cursor fields are strictly
increasing across successive next() calls and the cursor never rewinds. -/
theorem C10_cursor_strictly_increases :
    (∀ l : Lexer, l.position < l.readPosition →
      l.readPosition < (Lexer.NextToken l).2.readPosition ∧
      l.position < (Lexer.NextToken l).2.position) ∧
    (∀ (inp : List Nat) (m n : Nat), m < n →
      (Lexer.stateAt inp m).readPosition < (Lexer.stateAt inp n).readPosition ∧
      (Lexer.stateAt inp m).position < (Lexer.stateAt inp n).position) :=
  ⟨fun l h => ⟨Lexer.NextToken_rp_lt l, Lexer.NextToken_pos_lt l h⟩,
    Lexer.stateAt_strict_mono⟩

/-- Witness for C10 at the scanner freshly constructed from the empty input. -/
theorem C10_cursor_strictly_increases_witness :
    (Lexer.New []).readPosition < (Lexer.NextToken (Lexer.New [])).2.readPosition ∧
    (Lexer.New []).position < (Lexer.NextToken (Lexer.New [])).2.position :=
  C10_cursor_strictly_increases.1 (Lexer.New []) (by decide)
